import Mathlib

/-!
Shallow embedding of the ID-card field-extraction pipeline of
`services/id_card_service.py` and the batch endpoint of `apis/id_card_api.py`.

Strings are modelled by Lean `String` (a list of characters); Python string
primitives (`strip`, `lower`, `in`, `replace`, `len`) are embedded below over
`String.data`.  Python floats are modelled by `ℚ`.  A Python function that can
raise is modelled with `Option`/sum types (`none` / failure constructor models
the raised exception).  The character-class helpers implement the ASCII
fragment of Python's `str` semantics, which covers every string the heuristic
rules mention.
-/

/-- ASCII whitespace recognised by Python `str.strip()`. -/
def pyIsSpace (c : Char) : Bool :=
  c == ' ' || c == '\t' || c == '\n' || c == '\r' || c == '\x0b' || c == '\x0c'

/-- Python `s.strip()`: remove leading and trailing whitespace. -/
def pyStrip (s : String) : String :=
  ⟨(((s.data.dropWhile pyIsSpace).reverse).dropWhile pyIsSpace).reverse⟩

/-- Python `s.lower()` (ASCII fragment). -/
def pyLower (s : String) : String := ⟨s.data.map Char.toLower⟩

/-- Helper for Python `sub in s`: does `needle` occur as a contiguous
sublist of the character list? -/
def hasSubList (needle : List Char) : List Char → Bool
  | [] => needle.isEmpty
  | c :: t => needle.isPrefixOf (c :: t) || hasSubList needle t

/-- Python `sub in s` (substring containment). -/
def pyIn (sub s : String) : Bool := hasSubList sub.data s.data

/-- Helper for Python `s.replace(old, "")`: remove every non-overlapping
occurrence of `old`, scanning left to right.  The `fuel` argument makes the
recursion structural; it is initialised to the length of the list, which the
scan never exhausts early (each step consumes at least one character), so the
`fuel = 0` branch is unreachable. -/
def removeAllFuel (old : List Char) : Nat → List Char → List Char
  | _, [] => []
  | 0, l => l
  | fuel + 1, c :: t =>
    if !old.isEmpty && old.isPrefixOf (c :: t)
    then removeAllFuel old fuel ((c :: t).drop old.length)
    else c :: removeAllFuel old fuel t

/-- Python `s.replace(old, "")` for nonempty `old` (the heuristic only
replaces the literals `"Nama"` and `"Name"`). -/
def pyReplace (s old : String) : String :=
  ⟨removeAllFuel old.data s.data.length s.data⟩

/-- A regex word character (`\w`), ASCII fragment: letter, digit or
underscore. -/
def isWordChar (c : Char) : Bool := c.isAlphanum || c == '_'

/-- Consume exactly `n` digits from the front (`\d{n}` at the current
position), returning the remainder, else `none`. -/
def tryDigits : Nat → List Char → Option (List Char)
  | 0, l => some l
  | _ + 1, [] => none
  | n + 1, c :: t => if c.isDigit then tryDigits n t else none

/-- Consume one date separator (a dash-or-slash separator). -/
def trySep : List Char → Option (List Char)
  | [] => none
  | c :: t => if c == '-' || c == '/' then some t else none

/-- A `\b` word boundary holds after a word character at this position:
end of string or a non-word character. -/
def atWordEnd : List Char → Bool
  | [] => true
  | c :: _ => !isWordChar c

/-- Does `\d{16}\b` match at the start of `l`?  (The leading `\b` is checked
by the scanner.) -/
def id16At (l : List Char) : Bool :=
  match tryDigits 16 l with
  | some rest => atWordEnd rest
  | none => false

/-- Does `\d\x7b1,2\x7d sep \d\x7b1,2\x7d sep \d\x7b4\x7d \b (sep the dash-or-slash class)` match at the start of `l`?  The
two bounded quantifiers are expanded into their four length choices, which is
exactly the set of alternatives a backtracking regex engine explores. -/
def dateAt (l : List Char) : Bool :=
  ([(1, 1), (1, 2), (2, 1), (2, 2)] : List (Nat × Nat)).any fun p =>
    match tryDigits p.1 l with
    | none => false
    | some r1 =>
      match trySep r1 with
      | none => false
      | some r2 =>
        match tryDigits p.2 r2 with
        | none => false
        | some r3 =>
          match trySep r3 with
          | none => false
          | some r4 =>
            match tryDigits 4 r4 with
            | none => false
            | some r5 => atWordEnd r5

/-- Scan every position of the string, as `re.search` does.  `prevOk` records
whether a `\b` boundary precedes the current position, i.e. whether the
previous character (if any) is a non-word character; since every pattern we
scan for begins with `\d` (a word character), `\b` holds exactly when
`prevOk` does. -/
def scanFrom (check : List Char → Bool) : Bool → List Char → Bool
  | _, [] => false
  | prevOk, c :: t => (prevOk && check (c :: t)) || scanFrom check (!isWordChar c) t

/-- Python `re.search(r'\b\d{16}\b', s) is not None`
(line 225 of `id_card_service.py`). -/
def hasId16 (s : String) : Bool := scanFrom id16At true s.data

/-- Python `re.search(r'\b\d\x7b1,2\x7d sep \d\x7b1,2\x7d sep \d\x7b4\x7d \b (sep the dash-or-slash class)', s) is not None`
(line 234 of `id_card_service.py`). -/
def hasDate (s : String) : Bool := scanFrom dateAt true s.data

/-- One OCR text item as assembled in `extract_text_with_coordinates`:
text, confidence, bounding polygon and derived center point. -/
structure TextItem where
  text : String
  confidence : ℚ
  bbox : List (List ℚ)
  center : ℚ × ℚ
deriving DecidableEq, Repr

/-- Insert an item into a list, before the first element whose center-y is
not smaller — the stable insertion position. -/
def insertByY (a : TextItem) : List TextItem → List TextItem
  | [] => [a]
  | b :: l => if a.center.2 ≤ b.center.2 then a :: b :: l else b :: insertByY a l

/-- Python `sorted(extracted_text, key=lambda x: x["center"][1])`
(line 218 of `id_card_service.py`): a stable sort by ascending center-y,
realised as stable insertion sort (a stable sort's output is unique, so this
agrees with Python's Timsort). -/
def sortByCenterY : List TextItem → List TextItem
  | [] => []
  | a :: l => insertByY a (sortByCenterY l)

/-- The structured record built by `parse_id_card_data`. -/
structure IDData where
  id_number : String
  name : String
  place_of_birth : String
  date_of_birth : String
  gender : String
  address : String
  religion : String
  marital_status : String
  occupation : String
  nationality : String
  valid_until : String
  raw_text : List String
deriving DecidableEq, Repr

/-- The initial `id_data` dictionary: every field the empty string and
`raw_text` the empty list (lines 202-215 of `id_card_service.py`). -/
def idDataInit : IDData :=
  { id_number := "", name := "", place_of_birth := "", date_of_birth := ""
    gender := "", address := "", religion := "", marital_status := ""
    occupation := "", nationality := "", valid_until := "", raw_text := [] }

/-- Name-rule guard (line 230): the lowercased line contains `"nama"` or
`"name"` and the line is longer than 10 characters. -/
def nameCond (text : String) : Bool :=
  (pyIn "nama" (pyLower text) || pyIn "name" (pyLower text)) && decide (text.length > 10)

/-- Name-rule value (line 231):
`text.replace("Nama", "").replace("Name", "").strip()`. -/
def nameClean (text : String) : String :=
  pyStrip (pyReplace (pyReplace text "Nama") "Name")

/-- Gender-rule guard (line 239). -/
def genderCond (text : String) : Bool :=
  (["laki-laki", "perempuan", "male", "female"] : List String).any fun g =>
    pyIn g (pyLower text)

/-- Address-rule guard (line 243); the keyword list is kept verbatim from the
source, including the uppercase `"JL"` entry (which can never occur in a
lowercased ASCII string). -/
def addrCond (text : String) : Bool :=
  (["jl", "jalan", "rt", "rw", "kel", "kec", "JL"] : List String).any fun k =>
    pyIn k (pyLower text)

/-- One iteration of the loop body of `parse_id_card_data`
(lines 220-247) on the trimmed line `text`.  In the Python loop the field
updates happen sequentially, but each guard reads only `text` and the field
it updates, so the simultaneous record update below is the same function. -/
def stepLine (d : IDData) (text : String) : IDData :=
  { d with
    raw_text := d.raw_text ++ [text]
    id_number := if hasId16 text && d.id_number == "" then text else d.id_number
    name := if nameCond text then nameClean text else d.name
    date_of_birth := if hasDate text && d.date_of_birth == "" then text else d.date_of_birth
    gender := if genderCond text then text else d.gender
    address :=
      if addrCond text then
        (if d.address == "" then text else d.address ++ " " ++ text)
      else d.address }

/-- Loop body on a raw item: `text = item["text"].strip()` then the rules. -/
def stepItem (d : IDData) (item : TextItem) : IDData :=
  stepLine d (pyStrip item.text)

/-- `IDCardService.parse_id_card_data` (lines 192-249): sort by center-y,
then run the rule loop over every item. -/
def parse_id_card_data (extracted_text : List TextItem) : IDData :=
  (sortByCenterY extracted_text).foldl stepItem idDataInit

/-- Python `bbox[i][j]` with exception modelled as `none`. -/
def pyAt (l : List (List ℚ)) (i j : Nat) : Option ℚ := do
  let p ← l[i]?
  p[j]?

/-- `IDCardService._get_bbox_center` (lines 179-190).  The branch guard is
`len(bbox) == 4 and len(bbox[0]) == 2` (short-circuit: `bbox[0]` is only
read when the length is 4, hence never raises inside the guard).  The first
branch builds `x_coords`/`y_coords` by comprehension over all points; the
second branch indexes `bbox[0]` through `bbox[3]` explicitly.  `none` models
a raised `IndexError`. -/
def get_bbox_center (bbox : List (List ℚ)) : Option (ℚ × ℚ) :=
  if bbox.length == 4 && (bbox.headD []).length == 2 then do
    let xs ← bbox.mapM fun p => p[0]?
    let ys ← bbox.mapM fun p => p[1]?
    pure ((xs.foldl (· + ·) 0) / (xs.length : ℚ), (ys.foldl (· + ·) 0) / (ys.length : ℚ))
  else do
    let x1 ← pyAt bbox 0 0
    let x2 ← pyAt bbox 1 0
    let x3 ← pyAt bbox 2 0
    let x4 ← pyAt bbox 3 0
    let y1 ← pyAt bbox 0 1
    let y2 ← pyAt bbox 1 1
    let y3 ← pyAt bbox 2 1
    let y4 ← pyAt bbox 3 1
    let xs := [x1, x2, x3, x4]
    let ys := [y1, y2, y3, y4]
    pure ((xs.foldl (· + ·) 0) / (xs.length : ℚ), (ys.foldl (· + ·) 0) / (ys.length : ℚ))

/-- A detection box `(x1, y1, x2, y2)`; coordinates are floats in the
source, modelled by `ℚ`. -/
abbrev Box := ℚ × ℚ × ℚ × ℚ

/-- The selection key `(x[2]-x[0])*(x[3]-x[1])` of line 88:
width times height. -/
def box_area (b : Box) : ℚ := (b.2.2.1 - b.1) * (b.2.2.2 - b.2.1)

/-- The selection policy inline in `detect_id_card` (line 88):
`max(boxes, key=lambda x: (x[2]-x[0])*(x[3]-x[1]))`.  Python `max` keeps the
current maximum and replaces it only on a strictly greater key, so ties keep
the earliest element; `none` models the absent-boxes case in which the code
returns `None`. -/
def select_best_box : List Box → Option Box
  | [] => none
  | b :: bs => some (bs.foldl (fun acc x => if box_area acc < box_area x then x else acc) b)

/-- `IDCardService.crop_id_card` (lines 96-120), with the image modelled by
its width and height and the result by the rectangle kept: with a box, pad by
10 and clamp to the image bounds; with `None` (falsy), return the full image
(`image.crop` is not called). -/
def crop_id_card (width height : ℚ) (bbox : Option Box) : Box :=
  match bbox with
  | some (x1, y1, x2, y2) =>
    (max 0 (x1 - 10), max 0 (y1 - 10), min width (x2 + 10), min height (y2 + 10))
  | none => (0, 0, width, height)

/-- What the external collaborators do for one image: the detector's optional
box and the OCR stage's outcome (`Except.error` models a raised exception in
`extract_text_with_coordinates`). -/
structure ImageEnv where
  bbox : Option Box
  ocr : Except String (List TextItem)

/-- Outcome dictionary of `IDCardService.process_id_card`
(lines 261-290): on success a dict with `success: True`, `card_detected` and
the parsed data; any exception is caught and turned into
`success: False` plus the error string. -/
inductive ProcessResult where
  | ok (card_detected : Bool) (bbox : Option Box) (extracted_data : IDData)
  | fail (error : String)

/-- `IDCardService.process_id_card` (lines 261-290) over the collaborator
outcomes for one image. -/
def process_id_card (env : ImageEnv) : ProcessResult :=
  match env.ocr with
  | .ok items => .ok env.bbox.isSome env.bbox (parse_id_card_data items)
  | .error e => .fail e

/-- Part of `filename.rsplit('.', 1)` used by `allowed_file`: the substring
after the last dot. -/
def extAfterDot (filename : String) : String :=
  ⟨(filename.data.reverse.takeWhile (fun c => c ≠ '.')).reverse⟩

/-- `allowed_file` of `id_card_api.py` (lines 17-20). -/
def allowed_file (filename : String) : Bool :=
  filename.data.contains '.' &&
    (["png", "jpg", "jpeg", "gif", "bmp", "webp"] : List String).contains
      (pyLower (extAfterDot filename))

/-- One uploaded file of the batch request: its filename and what the
collaborators do for its image. -/
structure BatchFile where
  filename : String
  env : ImageEnv

/-- One per-index entry of the batch response: every entry carries the index,
the filename and either the extracted data (`success: True`) or an error
string (`success: False`). -/
inductive BatchEntry where
  | ok (index : Nat) (filename : String) (card_detected : Bool) (extracted_data : IDData)
  | fail (index : Nat) (filename : String) (error : String)

/-- The `success` flag of a batch entry. -/
def BatchEntry.succFlag : BatchEntry → Bool
  | .ok .. => true
  | .fail .. => false

/-- The `index` field of a batch entry. -/
def BatchEntry.idx : BatchEntry → Nat
  | .ok i _ _ _ => i
  | .fail i _ _ => i

/-- The `error` field of a batch entry (`none` on success entries). -/
def BatchEntry.errMsg : BatchEntry → Option String
  | .ok .. => none
  | .fail _ _ e => some e

/-- The loop body of `batch_process_id_cards` (`id_card_api.py`
lines 303-358) for the file at index `i`: empty filename and disallowed
extension short-circuit to failure entries (`continue`); otherwise
`process_id_card` runs under a per-item `try/except`, so both its failure
dict and any raised exception become a failure entry for this index only. -/
def process_batch_item (i : Nat) (f : BatchFile) : BatchEntry :=
  if f.filename == "" then .fail i "" "Empty filename"
  else if !allowed_file f.filename then .fail i f.filename "File type not allowed"
  else
    match process_id_card f.env with
    | .ok cd _ data => .ok i f.filename cd data
    | .fail e => .fail i f.filename e

/-- The `for i, file in enumerate(files)` loop of `batch_process_id_cards`,
accumulating one entry per input index. -/
def batchLoop : Nat → List BatchFile → List BatchEntry
  | _, [] => []
  | i, f :: fs => process_batch_item i f :: batchLoop (i + 1) fs

/-- `batch_process_id_cards` (`id_card_api.py` lines 301-358): the per-item
results list. -/
def batch_process_id_cards (files : List BatchFile) : List BatchEntry :=
  batchLoop 0 files

/-! ## Helper lemmas about the stable insertion sort -/

lemma length_insertByY (a : TextItem) (l : List TextItem) :
    (insertByY a l).length = l.length + 1 := by
  induction l with
  | nil => rfl
  | cons b t ih =>
    simp only [insertByY]
    split
    · simp
    · simp [ih]

lemma length_sortByCenterY (l : List TextItem) :
    (sortByCenterY l).length = l.length := by
  induction l with
  | nil => rfl
  | cons a t ih => simp [sortByCenterY, length_insertByY, ih]

lemma mem_insertByY {x a : TextItem} {l : List TextItem} :
    x ∈ insertByY a l ↔ x = a ∨ x ∈ l := by
  induction l with
  | nil => simp [insertByY]
  | cons b t ih =>
    simp only [insertByY]
    split
    · simp [List.mem_cons]
    · simp [List.mem_cons, ih]
      tauto

lemma pairwise_insertByY (a : TextItem) (l : List TextItem)
    (h : l.Pairwise (fun x y => x.center.2 ≤ y.center.2)) :
    (insertByY a l).Pairwise (fun x y => x.center.2 ≤ y.center.2) := by
  induction l with
  | nil => simp [insertByY]
  | cons b t ih =>
    rw [List.pairwise_cons] at h
    by_cases hab : a.center.2 ≤ b.center.2
    · simp only [insertByY, if_pos hab]
      refine List.Pairwise.cons ?_ (List.Pairwise.cons h.1 h.2)
      intro x hx
      rcases List.mem_cons.mp hx with rfl | hx
      · exact hab
      · exact le_trans hab (h.1 x hx)
    · simp only [insertByY, if_neg hab]
      refine List.Pairwise.cons ?_ (ih h.2)
      intro x hx
      rcases mem_insertByY.mp hx with rfl | hx
      · exact le_of_not_le hab
      · exact h.1 x hx

lemma pairwise_sortByCenterY (l : List TextItem) :
    (sortByCenterY l).Pairwise (fun x y => x.center.2 ≤ y.center.2) := by
  induction l with
  | nil => simp [sortByCenterY]
  | cons a t ih => exact pairwise_insertByY a _ ih

lemma filter_insertByY (k : ℚ) (a : TextItem) (l : List TextItem) :
    (insertByY a l).filter (fun it => decide (it.center.2 = k))
      = if a.center.2 = k then a :: l.filter (fun it => decide (it.center.2 = k))
        else l.filter (fun it => decide (it.center.2 = k)) := by
  induction l with
  | nil =>
    simp only [insertByY, List.filter]
    by_cases hk : a.center.2 = k <;> simp [hk]
  | cons b t ih =>
    by_cases hab : a.center.2 ≤ b.center.2
    · simp only [insertByY, if_pos hab]
      by_cases hk : a.center.2 = k <;> simp [List.filter_cons, hk]
    · simp only [insertByY, if_neg hab]
      rw [List.filter_cons, ih, List.filter_cons]
      by_cases hk : a.center.2 = k
      · have hbk : ¬(b.center.2 = k) := by
          intro hb
          exact hab (le_of_eq (by rw [hk, ← hb]))
        simp [hk, hbk]
      · by_cases hbk : b.center.2 = k <;> simp [hk, hbk]

lemma filter_sortByCenterY (k : ℚ) (l : List TextItem) :
    (sortByCenterY l).filter (fun it => decide (it.center.2 = k))
      = l.filter (fun it => decide (it.center.2 = k)) := by
  induction l with
  | nil => rfl
  | cons a t ih =>
    simp only [sortByCenterY]
    rw [filter_insertByY, List.filter_cons, ih]
    by_cases hk : a.center.2 = k <;> simp [hk]

/-! ## Helper lemmas about the rule loop -/

lemma foldl_stepItem_eq_stepLine (its : List TextItem) (d : IDData) :
    its.foldl stepItem d
      = (its.map (fun it => pyStrip it.text)).foldl stepLine d := by
  rw [List.foldl_map]
  rfl

lemma foldl_stepLine_raw (ls : List String) (d : IDData) :
    (ls.foldl stepLine d).raw_text = d.raw_text ++ ls := by
  induction ls generalizing d with
  | nil => simp
  | cons t ls ih =>
    rw [List.foldl_cons, ih]
    simp [stepLine]

/-- C1: for every input sequence of TextItems, `parse_id_card_data` returns a
record whose `raw_text` has the length of the input and lists the trimmed
texts of the items re-sorted by ascending center-y with a stable sort: the
sorted list is pairwise nondecreasing in center-y, and for every key value the
items with that center-y appear in their original relative input order. -/
theorem C1_raw_text_sorted_stable (items : List TextItem) :
    (parse_id_card_data items).raw_text.length = items.length ∧
    (parse_id_card_data items).raw_text
      = (sortByCenterY items).map (fun it => pyStrip it.text) ∧
    (sortByCenterY items).Pairwise (fun a b => a.center.2 ≤ b.center.2) ∧
    ∀ k : ℚ, (sortByCenterY items).filter (fun it => decide (it.center.2 = k))
      = items.filter (fun it => decide (it.center.2 = k)) := by
  have hraw : (parse_id_card_data items).raw_text
      = (sortByCenterY items).map (fun it => pyStrip it.text) := by
    rw [parse_id_card_data, foldl_stepItem_eq_stepLine, foldl_stepLine_raw]
    rfl
  refine ⟨?_, hraw, pairwise_sortByCenterY items, fun k => filter_sortByCenterY k items⟩
  rw [hraw, List.length_map, length_sortByCenterY]

lemma hasId16_ne_empty {t : String} (h : hasId16 t = true) : ¬(t = "") := by
  intro he
  subst he
  exact absurd h (by decide)

lemma hasDate_ne_empty {t : String} (h : hasDate t = true) : ¬(t = "") := by
  intro he
  subst he
  exact absurd h (by decide)

lemma addrCond_ne_empty {t : String} (h : addrCond t = true) : ¬(t = "") := by
  intro he
  subst he
  exact absurd h (by decide)

lemma foldl_stepLine_id (ls : List String) (d : IDData) :
    (ls.foldl stepLine d).id_number
      = if d.id_number = "" then ((ls.find? hasId16).getD "") else d.id_number := by
  induction ls generalizing d with
  | nil => by_cases h : d.id_number = "" <;> simp [h]
  | cons t ls ih =>
    rw [List.foldl_cons, ih]
    by_cases hd : d.id_number = ""
    · by_cases ht : hasId16 t
      · have : (stepLine d t).id_number = t := by simp [stepLine, ht, hd]
        rw [this, List.find?_cons_of_pos _ ht, if_pos hd]
        simp [hasId16_ne_empty ht]
      · have : (stepLine d t).id_number = d.id_number := by
          simp [stepLine, ht]
        rw [this, List.find?_cons_of_neg _ (by simp [ht]), if_pos hd]
    · have : (stepLine d t).id_number = d.id_number := by
        simp [stepLine, hd]
      rw [this, if_neg hd, if_neg hd]

lemma foldl_stepLine_date (ls : List String) (d : IDData) :
    (ls.foldl stepLine d).date_of_birth
      = if d.date_of_birth = "" then ((ls.find? hasDate).getD "") else d.date_of_birth := by
  induction ls generalizing d with
  | nil => by_cases h : d.date_of_birth = "" <;> simp [h]
  | cons t ls ih =>
    rw [List.foldl_cons, ih]
    by_cases hd : d.date_of_birth = ""
    · by_cases ht : hasDate t
      · have : (stepLine d t).date_of_birth = t := by simp [stepLine, ht, hd]
        rw [this, List.find?_cons_of_pos _ ht, if_pos hd]
        simp [hasDate_ne_empty ht]
      · have : (stepLine d t).date_of_birth = d.date_of_birth := by
          simp [stepLine, ht]
        rw [this, List.find?_cons_of_neg _ (by simp [ht]), if_pos hd]
    · have : (stepLine d t).date_of_birth = d.date_of_birth := by
        simp [stepLine, hd]
      rw [this, if_neg hd, if_neg hd]

lemma foldl_stepLine_name (ls : List String) (d : IDData) :
    (ls.foldl stepLine d).name
      = match (ls.filter nameCond).getLast? with
        | some t => nameClean t
        | none => d.name := by
  induction ls generalizing d with
  | nil => rfl
  | cons t ls ih =>
    rw [List.foldl_cons, ih, List.filter_cons]
    by_cases ht : nameCond t
    · have hstep : (stepLine d t).name = nameClean t := by simp [stepLine, ht]
      rw [hstep, if_pos ht]
      rcases hlast : (ls.filter nameCond).getLast? with _ | u
      · have : ls.filter nameCond = [] := List.getLast?_eq_none_iff.mp hlast
        rw [this]
        rfl
      · have hne : ls.filter nameCond ≠ [] := by
          intro hnil
          rw [hnil] at hlast
          exact absurd hlast (by simp)
        rcases hcons : ls.filter nameCond with _ | ⟨v, vs⟩
        · exact absurd hcons hne
        · rw [hcons] at hlast
          rw [List.getLast?_cons_cons, hlast]
    · have hstep : (stepLine d t).name = d.name := by simp [stepLine, ht]
      rw [hstep, if_neg ht]

lemma foldl_stepLine_addr (ls : List String) (d : IDData) :
    (ls.foldl stepLine d).address
      = (ls.filter addrCond).foldl
          (fun a t => if a = "" then t else a ++ " " ++ t) d.address := by
  induction ls generalizing d with
  | nil => rfl
  | cons t ls ih =>
    rw [List.foldl_cons, ih, List.filter_cons]
    by_cases ht : addrCond t
    · have hstep : (stepLine d t).address
          = if d.address = "" then t else d.address ++ " " ++ t := by
        simp [stepLine, ht]
      rw [hstep, if_pos ht, List.foldl_cons]
    · have hstep : (stepLine d t).address = d.address := by simp [stepLine, ht]
      rw [hstep, if_neg ht]

lemma foldl_stepLine_frame (ls : List String) (d : IDData) :
    (ls.foldl stepLine d).place_of_birth = d.place_of_birth ∧
    (ls.foldl stepLine d).religion = d.religion ∧
    (ls.foldl stepLine d).marital_status = d.marital_status ∧
    (ls.foldl stepLine d).occupation = d.occupation ∧
    (ls.foldl stepLine d).nationality = d.nationality ∧
    (ls.foldl stepLine d).valid_until = d.valid_until := by
  induction ls generalizing d with
  | nil => exact ⟨rfl, rfl, rfl, rfl, rfl, rfl⟩
  | cons t ls ih =>
    rw [List.foldl_cons]
    have h := ih (stepLine d t)
    simpa [stepLine] using h

/-- Space-join of a list of lines: the accumulated shape of the `address`
field (empty string for no lines). -/
def joinSp : List String → String
  | [] => ""
  | h :: t => t.foldl (fun a b => a ++ " " ++ b) h

lemma append_space_ne_empty (a b : String) : ¬(a ++ " " ++ b = "") := by
  intro h
  have h2 : (a ++ " " ++ b).length = 0 := by rw [h]; rfl
  rw [String.length_append, String.length_append] at h2
  have h3 : (" " : String).length = 1 := rfl
  omega

lemma foldl_join_of_ne_empty (ls : List String) (a : String) (ha : ¬(a = "")) :
    ls.foldl (fun x y => if x = "" then y else x ++ " " ++ y) a
      = ls.foldl (fun x y => x ++ " " ++ y) a := by
  induction ls generalizing a with
  | nil => rfl
  | cons t ls ih =>
    rw [List.foldl_cons, List.foldl_cons, if_neg ha]
    exact ih _ (append_space_ne_empty a t)

lemma foldl_join_eq_joinSp (ls : List String) (hls : ∀ t ∈ ls, ¬(t = "")) :
    ls.foldl (fun x y => if x = "" then y else x ++ " " ++ y) ""
      = joinSp ls := by
  cases ls with
  | nil => rfl
  | cons h t =>
    rw [List.foldl_cons, if_pos rfl, joinSp]
    exact foldl_join_of_ne_empty t h (hls h (by simp))

/-- C3: `name` is last-match-wins — it equals the cleaned, trimmed text of
the last line in sorted order satisfying the name rule (case-insensitively
containing "nama" or "name" and longer than 10 characters), the cleaning
removing the literal substrings "Nama" and "Name" and trimming; `name` is the
empty string when no line matches. -/
theorem C3_name_last_match (items : List TextItem) :
    (parse_id_card_data items).name
      = match (((sortByCenterY items).map (fun it => pyStrip it.text)).filter
          nameCond).getLast? with
        | some t => nameClean t
        | none => "" := by
  rw [parse_id_card_data, foldl_stepItem_eq_stepLine, foldl_stepLine_name]
  cases hx : (((sortByCenterY items).map (fun it => pyStrip it.text)).filter
      nameCond).getLast? <;> rfl

/-- C4: `id_number` is first-match-wins — it equals the full trimmed text of
the first line in sorted order containing a word-boundary-delimited run of
exactly 16 consecutive digits, and the empty string when no line does. -/
theorem C4_id_number_first_match (items : List TextItem) :
    (parse_id_card_data items).id_number
      = ((((sortByCenterY items).map (fun it => pyStrip it.text)).find?
          hasId16).getD "") := by
  rw [parse_id_card_data, foldl_stepItem_eq_stepLine, foldl_stepLine_id]
  rfl

/-- C5: `date_of_birth` is first-match-wins — it equals the full trimmed text
of the first line in sorted order containing a word-boundary-delimited date
match (1-2 digits, a dash or slash, 1-2 digits, a dash or slash, 4 digits),
and the empty string when no line does. -/
theorem C5_date_first_match (items : List TextItem) :
    (parse_id_card_data items).date_of_birth
      = ((((sortByCenterY items).map (fun it => pyStrip it.text)).find?
          hasDate).getD "") := by
  rw [parse_id_card_data, foldl_stepItem_eq_stepLine, foldl_stepLine_date]
  rfl

/-- C6: `address` accumulates — it equals the space-join, in sorted
(encounter) order, of every trimmed line that case-insensitively contains one
of the address-indicator substrings. -/
theorem C6_address_accumulates (items : List TextItem) :
    (parse_id_card_data items).address
      = joinSp (((sortByCenterY items).map (fun it => pyStrip it.text)).filter
          addrCond) := by
  rw [parse_id_card_data, foldl_stepItem_eq_stepLine, foldl_stepLine_addr]
  exact foldl_join_eq_joinSp _ (fun t ht => addrCond_ne_empty (List.of_mem_filter ht))

/-- C8: the six placeholder fields are never written by the heuristic — for
every input they come back as the empty string. -/
theorem C8_placeholder_fields_empty (items : List TextItem) :
    (parse_id_card_data items).place_of_birth = "" ∧
    (parse_id_card_data items).religion = "" ∧
    (parse_id_card_data items).marital_status = "" ∧
    (parse_id_card_data items).occupation = "" ∧
    (parse_id_card_data items).nationality = "" ∧
    (parse_id_card_data items).valid_until = "" := by
  rw [parse_id_card_data, foldl_stepItem_eq_stepLine]
  exact foldl_stepLine_frame _ idDataInit

/-- C2 counterexample: the claim says the parallel-coordinate-lists encoding
(the 4 x-coordinates and the 4 y-coordinates as two lists) is accepted and
centred without raising, but on that encoding the branch guard
`len(bbox) == 4` fails, the fallback branch indexes `bbox[2]` out of range
and the function raises `IndexError` (modelled by `none`) instead of
returning the mean point `(5/2, 13/2)`. -/
theorem C2_parallel_lists_cex :
    get_bbox_center [[1, 2, 3, 4], [5, 6, 7, 8]] = none ∧
    ¬(get_bbox_center [[1, 2, 3, 4], [5, 6, 7, 8]]
        = some ((1 + 2 + 3 + 4) / 4, (5 + 6 + 7 + 8) / 4)) := by
  refine ⟨rfl, by decide⟩

/-- C2 (amended): for every well-formed quadrilateral given as 4 (x,y)
pairs, `get_bbox_center` returns the arithmetic mean of the 4 x-coordinates
and of the 4 y-coordinates as a single point, without raising; the
parallel-coordinate-lists encoding is not accepted (see the
counterexample). -/
theorem C2_center_of_four_points (x1 y1 x2 y2 x3 y3 x4 y4 : ℚ) :
    get_bbox_center [[x1, y1], [x2, y2], [x3, y3], [x4, y4]]
      = some ((x1 + x2 + x3 + x4) / 4, (y1 + y2 + y3 + y4) / 4) := by
  simp only [get_bbox_center]
  norm_num [List.mapM, List.mapM.loop]

lemma foldl_best_box (b : Box) (bs : List Box) :
    (bs.foldl (fun acc x => if box_area acc < box_area x then x else acc) b) ∈ b :: bs ∧
    ∀ c ∈ b :: bs,
      box_area c
        ≤ box_area (bs.foldl (fun acc x => if box_area acc < box_area x then x else acc) b) := by
  induction bs generalizing b with
  | nil =>
    refine ⟨by simp, ?_⟩
    intro c hc
    rw [List.mem_singleton] at hc
    subst hc
    exact le_refl _
  | cons x bs ih =>
    rw [List.foldl_cons]
    rcases ih (if box_area b < box_area x then x else b) with ⟨hmem, hmax⟩
    constructor
    · rcases List.mem_cons.mp hmem with heq | hmem2
      · rw [heq]
        split
        · exact List.mem_cons_of_mem _ (List.mem_cons_self _ _)
        · exact List.mem_cons_self _ _
      · exact List.mem_cons_of_mem _ (List.mem_cons_of_mem _ hmem2)
    · intro c hc
      rcases List.mem_cons.mp hc with rfl | hc2
      · refine le_trans ?_ (hmax _ (List.mem_cons_self _ _))
        split
        · next hlt => exact le_of_lt hlt
        · exact le_refl _
      · rcases List.mem_cons.mp hc2 with rfl | hc3
        · refine le_trans ?_ (hmax _ (List.mem_cons_self _ _))
          split
          · exact le_refl _
          · next hlt => exact le_of_not_lt hlt
        · exact hmax _ (List.mem_cons_of_mem _ hc3)

/-- C7: for every non-empty list of detected boxes the selection policy of
`detect_id_card` returns a box of the list whose width-times-height area is
maximal; on the spec's example it picks `(0,0,5,100)`; and with no detected
box (`None`), `crop_id_card` keeps the full, uncropped image. -/
theorem C7_best_box_and_crop (bs : List Box) (hbs : bs ≠ []) (w h : ℚ) :
    (∃ b, select_best_box bs = some b ∧ b ∈ bs ∧ ∀ c ∈ bs, box_area c ≤ box_area b) ∧
    select_best_box [(0, 0, 10, 10), (0, 0, 5, 100)] = some (0, 0, 5, 100) ∧
    crop_id_card w h none = (0, 0, w, h) := by
  refine ⟨?_, by norm_num [select_best_box, box_area], rfl⟩
  cases bs with
  | nil => exact absurd rfl hbs
  | cons b0 rest =>
    rcases foldl_best_box b0 rest with ⟨hmem, hmax⟩
    exact ⟨_, rfl, hmem, hmax⟩

/-- Witness for C7 at a concrete non-empty input. -/
theorem C7_witness :
    (∃ b, select_best_box [((0 : ℚ), (0 : ℚ), (10 : ℚ), (10 : ℚ)), (0, 0, 5, 100)] = some b ∧
        b ∈ [((0 : ℚ), (0 : ℚ), (10 : ℚ), (10 : ℚ)), (0, 0, 5, 100)] ∧
        ∀ c ∈ [((0 : ℚ), (0 : ℚ), (10 : ℚ), (10 : ℚ)), (0, 0, 5, 100)],
          box_area c ≤ box_area b) ∧
    select_best_box [(0, 0, 10, 10), (0, 0, 5, 100)] = some (0, 0, 5, 100) ∧
    crop_id_card 640 480 none = (0, 0, 640, 480) :=
  C7_best_box_and_crop [(0, 0, 10, 10), (0, 0, 5, 100)] (by simp) 640 480

lemma batchLoop_length (n : Nat) (fs : List BatchFile) :
    (batchLoop n fs).length = fs.length := by
  induction fs generalizing n with
  | nil => rfl
  | cons f fs ih => simp [batchLoop, ih]

lemma batchLoop_getElem? (fs : List BatchFile) (n i : Nat) :
    (batchLoop n fs)[i]? = (fs[i]?).map (fun f => process_batch_item (n + i) f) := by
  induction fs generalizing n i with
  | nil => simp [batchLoop]
  | cons f fs ih =>
    cases i with
    | zero => simp [batchLoop]
    | succ j =>
      rw [batchLoop]
      rw [List.getElem?_cons_succ, List.getElem?_cons_succ, ih]
      have : n + (j + 1) = (n + 1) + j := by omega
      rw [this]

lemma process_batch_item_idx (i : Nat) (f : BatchFile) :
    (process_batch_item i f).idx = i := by
  unfold process_batch_item
  split
  · rfl
  · split
    · rfl
    · split <;> rfl

lemma succFlag_iff_errMsg (e : BatchEntry) :
    e.succFlag = false ↔ (e.errMsg).isSome = true := by
  cases e <;> simp [BatchEntry.succFlag, BatchEntry.errMsg]

/-- C9: batch processing is independent repeated invocation with per-item
failure isolation — the results list has one entry per input index, the entry
at index `i` is a function of the file at index `i` alone (so another item's
error cannot abort or change it), every entry carries its index and a success
flag, and an entry is unsuccessful exactly when it carries an error. -/
theorem C9_batch_isolation (files : List BatchFile) (i : Nat) (f : BatchFile)
    (h : files[i]? = some f) :
    (batch_process_id_cards files).length = files.length ∧
    (batch_process_id_cards files)[i]? = some (process_batch_item i f) ∧
    (process_batch_item i f).idx = i ∧
    ((process_batch_item i f).succFlag = false ↔
      ((process_batch_item i f).errMsg).isSome = true) := by
  refine ⟨batchLoop_length 0 files, ?_, process_batch_item_idx i f,
    succFlag_iff_errMsg _⟩
  rw [batch_process_id_cards, batchLoop_getElem?, h]
  simp

/-- Witness for C9: a concrete two-file batch whose first item fails in OCR
and whose second succeeds. -/
theorem C9_witness :
    (batch_process_id_cards
        [⟨"a.png", ⟨none, Except.error "boom"⟩⟩,
         ⟨"b.png", ⟨some (0, 0, 1, 1), Except.ok []⟩⟩]).length = 2 ∧
    (batch_process_id_cards
        [⟨"a.png", ⟨none, Except.error "boom"⟩⟩,
         ⟨"b.png", ⟨some (0, 0, 1, 1), Except.ok []⟩⟩])[0]?
      = some (process_batch_item 0 ⟨"a.png", ⟨none, Except.error "boom"⟩⟩) ∧
    (process_batch_item 0 ⟨"a.png", ⟨none, Except.error "boom"⟩⟩).idx = 0 ∧
    ((process_batch_item 0 ⟨"a.png", ⟨none, Except.error "boom"⟩⟩).succFlag = false ↔
      ((process_batch_item 0 ⟨"a.png", ⟨none, Except.error "boom"⟩⟩).errMsg).isSome = true) :=
  C9_batch_isolation
    [⟨"a.png", ⟨none, Except.error "boom"⟩⟩,
     ⟨"b.png", ⟨some (0, 0, 1, 1), Except.ok []⟩⟩]
    0 ⟨"a.png", ⟨none, Except.error "boom"⟩⟩ rfl

/-- Projection of a `TextItem` to the only two components the heuristic
reads: the text and the y-coordinate of the center. -/
def projTY (it : TextItem) : String × ℚ := (it.text, it.center.2)

lemma insertByY_projTY {a1 a2 : TextItem} {l1 l2 : List TextItem}
    (ha : projTY a1 = projTY a2) (h : l1.map projTY = l2.map projTY) :
    (insertByY a1 l1).map projTY = (insertByY a2 l2).map projTY := by
  induction l1 generalizing l2 with
  | nil =>
    cases l2 with
    | nil => simpa [insertByY] using ha
    | cons b2 t2 => exact absurd h (by simp)
  | cons b1 t1 ih =>
    cases l2 with
    | nil => exact absurd h (by simp)
    | cons b2 t2 =>
      rw [List.map_cons, List.map_cons, List.cons.injEq] at h
      obtain ⟨hb, ht⟩ := h
      have hay : a1.center.2 = a2.center.2 := by
        have := congrArg Prod.snd ha
        simpa [projTY] using this
      have hby : b1.center.2 = b2.center.2 := by
        have := congrArg Prod.snd hb
        simpa [projTY] using this
      by_cases hc : a1.center.2 ≤ b1.center.2
      · have hc2 : a2.center.2 ≤ b2.center.2 := by rw [← hay, ← hby]; exact hc
        simp only [insertByY, if_pos hc, if_pos hc2, List.map_cons]
        rw [ha, hb, ht]
      · have hc2 : ¬(a2.center.2 ≤ b2.center.2) := by rw [← hay, ← hby]; exact hc
        simp only [insertByY, if_neg hc, if_neg hc2, List.map_cons]
        rw [hb, ih ht]

lemma sortByCenterY_projTY {l1 l2 : List TextItem}
    (h : l1.map projTY = l2.map projTY) :
    (sortByCenterY l1).map projTY = (sortByCenterY l2).map projTY := by
  induction l1 generalizing l2 with
  | nil =>
    cases l2 with
    | nil => rfl
    | cons a2 t2 => exact absurd h (by simp)
  | cons a1 t1 ih =>
    cases l2 with
    | nil => exact absurd h (by simp)
    | cons a2 t2 =>
      rw [List.map_cons, List.map_cons, List.cons.injEq] at h
      obtain ⟨ha, ht⟩ := h
      exact insertByY_projTY ha (ih ht)

lemma foldl_stepItem_projTY {l1 l2 : List TextItem} (d : IDData)
    (h : l1.map projTY = l2.map projTY) :
    l1.foldl stepItem d = l2.foldl stepItem d := by
  induction l1 generalizing l2 d with
  | nil =>
    cases l2 with
    | nil => rfl
    | cons a2 t2 => exact absurd h (by simp)
  | cons a1 t1 ih =>
    cases l2 with
    | nil => exact absurd h (by simp)
    | cons a2 t2 =>
      rw [List.map_cons, List.map_cons, List.cons.injEq] at h
      obtain ⟨ha, ht⟩ := h
      rw [List.foldl_cons, List.foldl_cons]
      have htext : a1.text = a2.text := by
        have := congrArg Prod.fst ha
        simpa [projTY] using this
      rw [stepItem, stepItem, htext]
      exact ih _ ht

/-- C10: noninterference of unused TextItem components — two inputs of the
same length agreeing pairwise on text and center-y produce identical records;
the confidence, the polygon and the center x-coordinate have no influence. -/
theorem C10_noninterference (l1 l2 : List TextItem)
    (h : l1.map projTY = l2.map projTY) :
    parse_id_card_data l1 = parse_id_card_data l2 := by
  rw [parse_id_card_data, parse_id_card_data]
  exact foldl_stepItem_projTY idDataInit (sortByCenterY_projTY h)

/-- Witness for C10: two single-item inputs whose confidences, polygons and
center x-coordinates differ, with equal text and center-y, parse equally. -/
theorem C10_witness :
    ([⟨"abc", 9 / 10, [], (1, 2)⟩] : List TextItem).map projTY
        = ([⟨"abc", 1 / 10, [[3, 4]], (7, 2)⟩] : List TextItem).map projTY ∧
    parse_id_card_data [⟨"abc", 9 / 10, [], (1, 2)⟩]
      = parse_id_card_data [⟨"abc", 1 / 10, [[3, 4]], (7, 2)⟩] :=
  ⟨rfl, C10_noninterference _ _ rfl⟩
